import Mathlib

/-!
Verification of the connection-management core of this repository
(`ConnectionManagementService`): the connection lifecycle orchestrator, its
status registry, the federated-token credential resolver and the bounded
firewall-recovery protocol.

TypeScript is embedded shallowly: in-place mutation of a descriptor becomes
explicit state passing (a function returns the post-state of the object it
mutated), promises become `Except`-valued results, the asynchronous provider
completion becomes an oracle (`Env.complete`) indexed by the dispatch counter,
and the registry interference that may happen while a dispatch is in flight
becomes an oracle (`Env.interfere`) applied between registration and
completion.  JavaScript truthiness of optional strings / numeric error codes
is modelled explicitly (`strTruthy`, `codeTruthy`).
-/

namespace ConnMgmt

/-- JS truthiness of an optional string (`undefined`, `null` and `""` are falsy). -/
def strTruthy : Option String → Bool
  | none => false
  | some s => s ≠ ""

/-- JS truthiness of an optional numeric error code (`undefined` and `0` are falsy). -/
def codeTruthy : Option Nat → Bool
  | none => false
  | some n => n ≠ 0

/-- The option bag `connection.options`: an ordered key → value map with unique
keys; a key stored with value `none` models a key assigned `undefined`. -/
abbrev OptionBag := List (String × Option String)

/-- Reading `bag[k]` in JS: the stored value, or `undefined` when absent. -/
def getOpt (bag : OptionBag) (k : String) : Option String :=
  match bag.find? (fun e => e.1 == k) with
  | some e => e.2
  | none => none

/-- Writing `bag[k] = v` in JS (assigning `undefined` keeps the key but makes
reads return `undefined`, which `getOpt` models uniformly). -/
def setOpt (bag : OptionBag) (k : String) (v : Option String) : OptionBag :=
  (k, v) :: bag.filter (fun e => !(e.1 == k))

/-- `Constants.azureMFA`: the federated ("AAD/MFA") authentication type. -/
def azureMFA : String := "AzureMFA"

/-- `interfaces.IConnectionProfile` — the connection descriptor: identity
fields, credentials and the provider-specific option bag. -/
structure ConnectionProfile where
  providerName : String
  serverName : String
  authenticationType : String
  userName : String
  password : Option String
  databaseName : String
  groupId : String
  azureTenantId : Option String
  savePassword : Bool
  saveProfile : Bool
  options : OptionBag
deriving Repr, DecidableEq

/-- An account from the account-management service (`azdata.Account`):
its key's `accountId` and the staleness flag. -/
structure Account where
  accountId : String
  isStale : Bool
deriving Repr, DecidableEq

/-- Modelled from the spec: `ConnectionAttemptRecord` (the status registry's
`ConnectionManagementInfo`, whose source is not under src/): the descriptor,
the canonical owner URI of the slot, the `connecting` lifecycle flag and the
`deleted` flag set when a delete request races an in-flight connect. -/
structure ConnRecord where
  profile : ConnectionProfile
  ownerUri : String
  connecting : Bool
  deleted : Bool
deriving Repr, DecidableEq

/-- Modelled from the spec: the Connection Status Registry
(`ConnectionStatusManager`, not under src/) — a mapping from owner URI to at
most one `ConnRecord`. -/
abbrev Registry := List (String × ConnRecord)

/-- Modelled from the spec: `findConnection(uri)` — the record for `uri`, if any. -/
def findConnection (st : Registry) (uri : String) : Option ConnRecord :=
  (st.find? (fun e => e.1 == uri)).map (·.2)

/-- Remove every entry for `uri` from the registry. -/
def removeEntry (st : Registry) (uri : String) : Registry :=
  st.filter (fun e => !(e.1 == uri))

/-- Modelled from the spec: `addConnection(descriptor, uri)` — registers a fresh
attempt record for `uri` in state `connecting`, superseding any previous entry. -/
def addConnection (st : Registry) (conn : ConnectionProfile) (uri : String) : Registry :=
  (uri, ⟨conn, uri, true, false⟩) :: removeEntry st uri

/-- Set the `connecting` flag of the record at `uri`. -/
def setConnecting (st : Registry) (uri : String) (b : Bool) : Registry :=
  st.map fun e => if e.1 == uri then (e.1, { e.2 with connecting := b }) else e

/-- Mark the record at `uri` deleted (lazy removal for in-flight attempts). -/
def markDeleted (st : Registry) (uri : String) : Registry :=
  st.map fun e => if e.1 == uri then (e.1, { e.2 with deleted := true }) else e

/-- Modelled from the spec: `deleteConnection(uri)` — removes the record; if the
attempt is still in flight (`connecting`), the record is instead marked deleted
so the in-flight completion can still resolve safely (lazy removal). -/
def deleteConnection (st : Registry) (uri : String) : Registry :=
  match findConnection st uri with
  | some info => if info.connecting then markDeleted st uri else removeEntry st uri
  | none => st

/-- Modelled from the spec: `isConnected(uri)` — a record exists for `uri` in the
connected state (no longer connecting, not deleted). -/
def isConnected (st : Registry) (uri : String) : Bool :=
  match findConnection st uri with
  | some r => !r.connecting && !r.deleted
  | none => false

/-- Modelled from the spec: `isConnecting(uri)` — a record exists for `uri` whose
attempt is still in flight. -/
def isConnecting (st : Registry) (uri : String) : Bool :=
  match findConnection st uri with
  | some r => r.connecting
  | none => false

/-- Modelled from the spec: `getOriginalOwnerUri(uri)` — resolves URI aliasing to
the canonical slot: the record's stored owner URI when a record exists, else `uri`. -/
def getOriginalOwnerUri (st : Registry) (uri : String) : String :=
  match findConnection st uri with
  | some r => r.ownerUri
  | none => uri

/-- Modelled from the spec: profile identity used by the registry's
`findConnectionProfile` — provider + server + auth + user + database. -/
def sameProfile (a b : ConnectionProfile) : Bool :=
  a.providerName == b.providerName && a.serverName == b.serverName &&
  a.authenticationType == b.authenticationType && a.userName == b.userName &&
  a.databaseName == b.databaseName

/-- Modelled from the spec: `findConnectionProfile(profile)` — the first registry
record whose descriptor has the same identity as `profile`. -/
def findConnectionProfile (st : Registry) (p : ConnectionProfile) : Option ConnRecord :=
  (st.find? (fun e => sameProfile e.2.profile p)).map (·.2)

/-- Modelled from the spec: `Utils.generateUri(connection, purpose)` — the opaque
purpose-bound owner URI derived from a descriptor (purpose defaults to
`connection`). -/
def generateUri (conn : ConnectionProfile) (purpose : Option String) : String :=
  "connection:" ++ purpose.getD "connection" ++ ":" ++ conn.providerName ++ ":" ++
    conn.serverName ++ ":" ++ conn.databaseName ++ ":" ++ conn.userName

/-- The four arguments the provider layer passes to a record's one-shot
`connectHandler` when the asynchronous connection-complete notification
arrives: the raw connect result and the optional error data. -/
structure ProviderCompletion where
  connectResult : Bool
  errorMessage : Option String
  errorCode : Option Nat
  callStack : Option String
deriving Repr, DecidableEq

/-- `IConnectionResult` — the terminal outcome of one connect attempt. A field
that the source leaves unassigned (JS `undefined`) is `none` / `false`. -/
structure IConnectionResult where
  connected : Bool
  errorMessage : Option String
  errorCode : Option Nat
  callStack : Option String
  errorHandled : Bool
  connectionProfile : Option ConnectionProfile
deriving Repr, DecidableEq

/-- `IConnectionCompletionOptions` — the caller-supplied completion options. -/
structure IConnectionCompletionOptions where
  saveTheConnection : Bool
  showDashboard : Bool
  showConnectionDialogOnError : Bool
  showFirewallRuleOnError : Bool
deriving Repr, DecidableEq

/-- The external collaborators of the orchestrator, as oracles: the account
management delegate (accounts, refresh, security tokens), the connection store
(stored credentials, password-required policy), the provider layer
(`complete n` is the completion delivered for the n-th dispatch, 0-based;
`interfere n` is whatever registry mutation races the n-th in-flight dispatch),
and the firewall-rule remediation delegate. -/
structure Env where
  accounts : List Account
  refresh : Account → Option Account
  securityToken : Account → List (String × String)
  storedCred : ConnectionProfile → Option String
  isPasswordRequired : ConnectionProfile → Bool
  complete : Nat → ProviderCompletion
  interfere : Nat → Registry → Registry
  canHandleFirewallRule : Bool
  firewallRuleDialogResult : Bool

/-- Look up the security-token entry for a tenant id. -/
def tenantLookup (toks : List (String × String)) (tid : String) : Option String :=
  (toks.find? (fun e => e.1 == tid)).map (·.2)

/-- `if (tenantId && tokensByTenant[tenantId]) token = tokensByTenant[tenantId].token`:
the token for the descriptor's configured tenant, when that tenant is configured
(truthy) and has a token. -/
def tenantPreferred (conn : ConnectionProfile) (tokensByTenant : List (String × String)) :
    Option String :=
  match conn.azureTenantId with
  | some tid => if tid ≠ "" then tenantLookup tokensByTenant tid else none
  | none => none

/-- `fillInOrClearAzureToken(connection)` — fills in the Azure account token if
it is needed for this connection and doesn't already have one, and clears it if
it isn't.  The TypeScript mutates `connection` in place; the second component
here is the post-state of that same descriptor object. -/
def fillInOrClearAzureToken (env : Env) (conn : ConnectionProfile) :
    Bool × ConnectionProfile :=
  if conn.authenticationType ≠ azureMFA then
    (true, { conn with options := setOpt conn.options "azureAccountToken" none })
  else if strTruthy (getOpt conn.options "azureAccountToken") then
    (true, conn)
  else
    match env.accounts.find? (fun a => a.accountId == conn.userName) with
    | none => (false, conn)
    | some a =>
      match (if a.isStale then env.refresh a else some a) with
      | none => (false, conn)  -- refreshAccount throws if the user cancels the dialog
      | some a2 =>
        let tokensByTenant := env.securityToken a2
        match tenantPreferred conn tokensByTenant with
        | some token =>
          (true, { conn with options :=
            (setOpt (setOpt conn.options "azureAccountToken" (some token)) "password" (some "")) })
        | none =>
          match tokensByTenant with
          | [] => (false, conn)
          | (_, token) :: _ =>
            (true, { conn with options :=
              (setOpt (setOpt conn.options "azureAccountToken" (some token)) "password" (some "")) })

/-- `createNewConnection(uri, connection)` — registers a pending attempt record,
wires its one-shot completion handler and issues the provider dispatch (`n` is
the dispatch counter; the dispatch itself is the n-th).  The handler, run when
the provider completes, is the single resolution point: the promise always
resolves (never rejects).  The lifecycle advance out of `connecting` that the
service applies on completion before running the handler is modelled from the
spec (that code is not under src/). -/
def createNewConnection (env : Env) (n : Nat) (uri : String) (conn : ConnectionProfile)
    (st : Registry) : IConnectionResult × Registry :=
  let st1 := addConnection st conn uri
  let st2 := env.interfere n st1
  let raw := env.complete n
  let st3 := setConnecting st2 uri false
  match findConnection st3 uri with
  | some info =>
    if info.deleted then
      (⟨raw.connectResult, none, none, none, true, some conn⟩, deleteConnection st3 uri)
    else if strTruthy raw.errorMessage then
      (⟨raw.connectResult, raw.errorMessage, raw.errorCode, raw.callStack, false, some conn⟩,
        deleteConnection st3 uri)
    else
      (⟨raw.connectResult, raw.errorMessage, raw.errorCode, raw.callStack, false, some conn⟩, st3)
  | none =>
    if strTruthy raw.errorMessage then
      (⟨raw.connectResult, raw.errorMessage, raw.errorCode, raw.callStack, false, some conn⟩,
        deleteConnection st3 uri)
    else
      (⟨raw.connectResult, raw.errorMessage, raw.errorCode, raw.callStack, false, some conn⟩, st3)

/-- `handleFirewallRuleError(connection, connectionResult)` — consults the
resource-provider remediation delegate; when it can handle the error, marks the
result `errorHandled` and shows the firewall-rule dialog, whose boolean outcome
is the returned success.  Returns (success, mutated connectionResult). -/
def handleFirewallRuleError (env : Env) (res : IConnectionResult) :
    Bool × IConnectionResult :=
  if env.canHandleFirewallRule then
    (env.firewallRuleDialogResult, { res with errorHandled := true })
  else
    (false, res)

/-- The rejection a connect attempt can surface before/instead of a result. -/
inductive ConnErr where
  | authTokenError
deriving Repr, DecidableEq

/-- `connection.options['groupId'] = connection.groupId;
connection.options['databaseDisplayName'] = connection.databaseName` — the
derived option-bag fields stamped at the top of `connectWithOptions`. -/
def stampDerivedOptions (conn : ConnectionProfile) : ConnectionProfile :=
  { conn with options :=
      (setOpt (setOpt conn.options "groupId" (some conn.groupId))
        "databaseDisplayName" (some conn.databaseName)) }

/-- Modelled from the spec: `updateConnectionProfile(descriptor, uri)` — the
registry reconciles an attempt's descriptor after a save completes. -/
def updateConnectionProfile (st : Registry) (conn : ConnectionProfile) (uri : String) :
    Registry :=
  st.map fun e => if e.1 == uri then (e.1, { e.2 with profile := conn }) else e

/-- `connectWithOptions(connection, uri, options, callbacks)` — the dispatch
core: stamps derived options, resolves URI aliasing, resolves the federated
token (fails fast when unsuccessful), dispatches via `createNewConnection`,
performs post-connect bookkeeping on success, and on an error-carrying failure
delegates to `handleConnectionError`, whose successful remediation re-invokes
this function once with the firewall-recovery option disabled.  Returns
(outcome, post-state of the descriptor object, registry, dispatch counter). -/
def connectWithOptions (env : Env) (conn : ConnectionProfile) (uri? : Option String)
    (opts : IConnectionCompletionOptions) (st : Registry) (n : Nat) :
    Except ConnErr IConnectionResult × ConnectionProfile × Registry × Nat :=
  let conn1 := stampDerivedOptions conn
  let uri0 := match uri? with | some u => u | none => generateUri conn1 none
  let uri := getOriginalOwnerUri st uri0
  let filled := fillInOrClearAzureToken env conn1
  let conn2 := filled.2
  if !filled.1 then
    (.error .authTokenError, conn2, st, n)
  else
    let dispatched := createNewConnection env n uri conn2 st
    let res := dispatched.1
    let st1 := dispatched.2
    let n1 := n + 1
    if res.connected then
      -- post-connect bookkeeping: the attempt becomes active; with
      -- saveTheConnection the profile is persisted (saveToSettings →
      -- updateConnectionProfile), otherwise saveProfile is turned off
      if opts.saveTheConnection then
        (.ok res, conn2, updateConnectionProfile st1 conn2 uri, n1)
      else
        (.ok res, { conn2 with saveProfile := false }, st1, n1)
    else if strTruthy res.errorMessage then
      -- handleConnectionError(connection, uri, options, callbacks, connectionResult)
      if opts.showFirewallRuleOnError && codeTruthy res.errorCode then
        let handled := handleFirewallRuleError env res
        if handled.1 then
          connectWithOptions env conn2 (some uri)
            { opts with showFirewallRuleOnError := false } st1 n1
        else
          (.ok handled.2, conn2, st1, n1)
      else
        (.ok res, conn2, st1, n1)
    else
      (.ok res, conn2, st1, n1)
termination_by (if opts.showFirewallRuleOnError then 1 else 0)
decreasing_by simp_all

/-- Modelled from the spec: `ConnectionStore.addSavedPassword(connection)` (not
under src/) — looks up the stored secret and returns a profile with the password
populated when found, plus the `savedCred` flag. -/
def addSavedPassword (env : Env) (conn : ConnectionProfile) : ConnectionProfile × Bool :=
  match env.storedCred conn with
  | some p => ({ conn with password := some p }, true)
  | none => (conn, false)

/-- The password-loading prefix of `tryConnect`: `addSavedPassword` plus the
backfill of the password from an existing connected profile with the same
identity when the store had none and one is required. -/
def loadAndBackfill (env : Env) (conn : ConnectionProfile) (st : Registry) :
    ConnectionProfile × Bool :=
  let loaded := addSavedPassword env conn
  let newConn0 := loaded.1
  let found0 := loaded.2
  if !found0 && env.isPasswordRequired newConn0 then
    match findConnectionProfile st conn with
    | some existing => ({ newConn0 with password := existing.profile.password }, true)
    | none => (newConn0, found0)
  else (newConn0, found0)

/-- `tryConnect(connection, owner, options)` — loads the password (backfilling
it from an existing connected profile with the same identity when the store has
none), resolves the federated token, and either short-circuits to the
"show dialog on error" path (which resolves with a blank non-connected result;
the dialog itself is an external collaborator) or dispatches via
`connectWithOptions`.  A non-connected, non-handled dispatch result is also
offered to the dialog path, which resolves with that same result. -/
def tryConnect (env : Env) (conn : ConnectionProfile) (ownerUri : String)
    (opts : IConnectionCompletionOptions) (st : Registry) (n : Nat) :
    Except ConnErr IConnectionResult × ConnectionProfile × Registry × Nat :=
  let backfilled := loadAndBackfill env conn st
  let newConn1 := backfilled.1
  let found1 := backfilled.2
  let filled := fillInOrClearAzureToken env newConn1
  let tokenOk := filled.1
  let newConn2 := filled.2
  if (!found1 && env.isPasswordRequired newConn2 && !(strTruthy newConn2.password)) || !tokenOk then
    (.ok ⟨false, none, none, none, false, none⟩, newConn2, st, n)
  else
    connectWithOptions env newConn2 (some ownerUri) opts st n

/-- `connect(connection, uri, options, callbacks)` — generates a canonical owner
URI when the caller supplied none and proceeds to `tryConnect`. -/
def connect (env : Env) (conn : ConnectionProfile) (uri? : Option String)
    (opts : IConnectionCompletionOptions) (st : Registry) (n : Nat) :
    Except ConnErr IConnectionResult × ConnectionProfile × Registry × Nat :=
  let uri := match uri? with | some u => u | none => generateUri conn none
  tryConnect env conn uri opts st n

/-- The failure of `connectIfNotConnected`: either the rejection propagated from
the connect chain, or the thrown `connectionResult.errorMessage` of a result
that is not connected. -/
inductive ConnectIfErr where
  | authTokenError
  | notConnected (msg : Option String)
deriving Repr, DecidableEq

/-- `connectIfNotConnected(connection, purpose, saveConnection)` — the
idempotent front door: if a connected record already exists for the derived
owner URI, resolves immediately with its canonical URI and no dispatch;
otherwise performs a full connect with default recovery options and throws the
result's error message if it is not connected. -/
def connectIfNotConnected (env : Env) (conn : ConnectionProfile) (purpose : Option String)
    (saveConnection : Bool) (st : Registry) (n : Nat) :
    Except ConnectIfErr String × Registry × Nat :=
  let ownerUri := generateUri conn purpose
  if isConnected st ownerUri then
    (.ok (getOriginalOwnerUri st ownerUri), st, n)
  else
    let opts : IConnectionCompletionOptions :=
      { saveTheConnection := saveConnection
        showDashboard := purpose == some "dashboard"
        showConnectionDialogOnError := true
        showFirewallRuleOnError := true }
    match connect env conn (some ownerUri) opts st n with
    | (.ok r, _, st1, n1) =>
      if r.connected then (.ok (getOriginalOwnerUri st1 ownerUri), st1, n1)
      else (.error (.notConnected r.errorMessage), st1, n1)
    | (.error _, _, st1, n1) => (.error .authTokenError, st1, n1)

/-- `ConnectionProfileGroup` — a node of the connection-group forest: an id,
its registered connections and its child groups. -/
inductive ConnectionProfileGroup where
  | mk (id : String) (connections : List ConnectionProfile)
       (children : List ConnectionProfileGroup)

/-- The group's id. -/
def ConnectionProfileGroup.id : ConnectionProfileGroup → String
  | .mk i _ _ => i

/-- The group's own registered connections. -/
def ConnectionProfileGroup.connections : ConnectionProfileGroup → List ConnectionProfile
  | .mk _ cs _ => cs

/-- The group's child groups. -/
def ConnectionProfileGroup.children : ConnectionProfileGroup → List ConnectionProfileGroup
  | .mk _ _ ch => ch

mutual

/-- `doHasRegisteredServers(root)` — the source's recursive "has any registered
server" check, with its literal loop `for (let i = 0; root.length; ++i)`: the
condition never re-evaluates `i`, so for a non-empty `root` the loop only exits
through a `return` — at the latest when `i` walks past the end and
`root[i]` is undefined, where `if (!item) return false` fires.  Iterating the
index with that exit is exactly structural recursion on the list
(`doHasRegisteredServersLoop`). -/
def doHasRegisteredServers (root : List ConnectionProfileGroup) : Bool :=
  if root.isEmpty then false
  else doHasRegisteredServersLoop root
termination_by (sizeOf root, 1)

/-- The body of the loop of `doHasRegisteredServers` at index `i`, as recursion
on `root.drop i`: `root[i]` undefined → false; a non-empty connection list →
true; a descendant hit via `doHasRegisteredServers(item.children)` → true;
otherwise continue with `i + 1`. -/
def doHasRegisteredServersLoop : List ConnectionProfileGroup → Bool
  | [] => false
  | g :: rest =>
    if g.connections.length > 0 then true
    else if doHasRegisteredServers g.children then true
    else doHasRegisteredServersLoop rest
termination_by l => (sizeOf l, 0)
decreasing_by
  · exact Prod.Lex.left _ _ (by
      cases g with
      | mk i cs ch => simp [ConnectionProfileGroup.children]; try omega)
  · exact Prod.Lex.left _ _ (by simp; try omega)

end

/-- The spec's intended semantics for C9, written from its words: a depth-first
search for any non-empty connection list across the whole group forest. -/
def hasAnyServerSpec : List ConnectionProfileGroup → Bool
  | [] => false
  | g :: rest =>
    decide (g.connections ≠ []) || hasAnyServerSpec g.children || hasAnyServerSpec rest
termination_by l => sizeOf l
decreasing_by
  · cases g with
    | mk i cs ch => simp [ConnectionProfileGroup.children]; try omega
  · simp; try omega

/-- A group reachable in the forest: a root-list member, or reachable inside a
member's children. -/
inductive InForest : ConnectionProfileGroup → List ConnectionProfileGroup → Prop where
  | atRoot {g : ConnectionProfileGroup} {l : List ConnectionProfileGroup} :
      g ∈ l → InForest g l
  | inChild {g p : ConnectionProfileGroup} {l : List ConnectionProfileGroup} :
      p ∈ l → InForest g p.children → InForest g l

mutual

/-- `ConnectionProfileGroup.getConnectionsInGroup(group)` (same recursion as the
service's private `getConnectionsInGroup`): the group's own connections followed
by those of every descendant. -/
def getConnectionsInGroup : ConnectionProfileGroup → List ConnectionProfile
  | .mk _ cs ch => cs ++ getConnectionsInGroups ch
termination_by g => (sizeOf g, 1)

/-- The child fold of `getConnectionsInGroup`. -/
def getConnectionsInGroups : List ConnectionProfileGroup → List ConnectionProfile
  | [] => []
  | g :: rest => getConnectionsInGroup g ++ getConnectionsInGroups rest
termination_by l => (sizeOf l, 0)
decreasing_by
  · exact Prod.Lex.left _ _ (by simp; try omega)
  · exact Prod.Lex.left _ _ (by simp; try omega)

end

/-- Modelled from the spec: the group-deletion collaborators not under src/ —
`doDisconnect` (provider-level teardown, a promise that may reject: `none`) and
`deleteGroupFromConfiguration` (configuration-store removal, which may itself
reject). -/
structure GroupEnv where
  disconnect : ConnectionProfile → Option Bool
  removeConfigOk : Bool

/-- `deleteConnectionGroup(group)` — disconnects every currently-connected
connection of the group and its descendants, and only when all those disconnect
promises fulfil removes the group from configuration; any rejection is caught
and degrades the whole deletion to `false` with the configuration untouched.
Returns (resolved value, whether the configuration was modified). -/
def deleteConnectionGroup (genv : GroupEnv) (st : Registry)
    (group : ConnectionProfileGroup) : Bool × Bool :=
  let conns := getConnectionsInGroup group
  let disconnected :=
    (conns.filter (fun c => isConnected st (generateUri c none))).map genv.disconnect
  if disconnected.all (·.isSome) then
    if genv.removeConfigOk then (true, true) else (false, false)
  else (false, false)

/-- `isProfileConnected(connectionProfile)` — a registry record for the profile
exists and is no longer connecting. -/
def isProfileConnected (st : Registry) (p : ConnectionProfile) : Bool :=
  match findConnectionProfile st p with
  | some r => !r.connecting
  | none => false

/-- `isProfileConnecting(connectionProfile)` — a registry record for the profile
exists and is still connecting. -/
def isProfileConnecting (st : Registry) (p : ConnectionProfile) : Bool :=
  match findConnectionProfile st p with
  | some r => r.connecting
  | none => false

/-! ### Concrete states used by the witnesses -/

/-- A plain non-federated descriptor. -/
def baseProfile : ConnectionProfile :=
  { providerName := "pgsql", serverName := "db1", authenticationType := "SqlLogin",
    userName := "u", password := some "p", databaseName := "mydb", groupId := "g1",
    azureTenantId := none, savePassword := false, saveProfile := true, options := [] }

/-- An inert collaborator environment. -/
def idEnv : Env :=
  { accounts := [], refresh := fun _ => none, securityToken := fun _ => [],
    storedCred := fun _ => none, isPasswordRequired := fun _ => false,
    complete := fun _ => ⟨true, none, none, none⟩, interfere := fun _ s => s,
    canHandleFirewallRule := false, firewallRuleDialogResult := false }

/-- `baseProfile` switched to federated authentication. -/
def mfaProfile : ConnectionProfile := { baseProfile with authenticationType := azureMFA }

/-- An environment holding one fresh account matching `mfaProfile` with a single
tenant token. -/
def mutEnv : Env :=
  { idEnv with accounts := [⟨"u", false⟩], securityToken := fun _ => [("t1", "tok1")] }

/-- An environment whose in-flight interference is a delete request for the
slot `u0` (the registry's lazy removal marks the connecting record deleted). -/
def delEnv : Env := { idEnv with interfere := fun _ s => markDeleted s "u0" }

/-- The owner URI `connectWithOptions` resolves before dispatching. -/
def resolvedUri (st : Registry) (c1 : ConnectionProfile) (uri? : Option String) : String :=
  getOriginalOwnerUri st (match uri? with | some u => u | none => generateUri c1 none)

/-- An always-remediably-failing provider with an always-successful
remediation delegate. -/
def failEnv : Env :=
  { idEnv with
    complete := fun _ => ⟨false, some "firewall", some 40615, none⟩
    canHandleFirewallRule := true
    firewallRuleDialogResult := true }

/-- `baseProfile` with a stale token already sitting in the option bag. -/
def staleTokProfile : ConnectionProfile :=
  { baseProfile with options := [("azureAccountToken", some "stale")] }

/-- The derived owner URI of `baseProfile` for the default purpose. -/
def baseUri : String := generateUri baseProfile none

/-- A registry in which `baseProfile`'s slot is already connected. -/
def connectedSt : Registry := [(baseUri, ⟨baseProfile, baseUri, false, false⟩)]

/-- A one-node group holding `baseProfile`. -/
def witnessGroup : ConnectionProfileGroup := .mk "grp" [baseProfile] []

/-- A group environment whose disconnect always rejects. -/
def rejectingGroupEnv : GroupEnv := { disconnect := fun _ => none, removeConfigOk := true }

/-! ### Basic lemmas about the option bag and the registry -/

theorem getOpt_setOpt_self (bag : OptionBag) (k : String) (v : Option String) :
    getOpt (setOpt bag k v) k = v := by
  simp [getOpt, setOpt, List.find?]

theorem find?_filter_ne (bag : OptionBag) (k k' : String) (h : k' ≠ k) :
    List.find? (fun e => e.1 == k') (bag.filter (fun e => !(e.1 == k))) =
      List.find? (fun e => e.1 == k') bag := by
  induction bag with
  | nil => rfl
  | cons e t ih =>
    rw [List.filter_cons]
    by_cases h2 : e.1 = k
    · have h1 : e.1 ≠ k' := fun c => h (by rw [← c, h2])
      have hb2 : (!(e.1 == k)) = false := by simp [h2]
      rw [hb2, if_neg (by simp), List.find?_cons_of_neg _ (by simp [h1])]
      exact ih
    · have hb2 : (!(e.1 == k)) = true := by simp [h2]
      rw [hb2, if_pos rfl]
      by_cases h1 : e.1 = k'
      · rw [List.find?_cons_of_pos _ (by simp [h1]), List.find?_cons_of_pos _ (by simp [h1])]
      · rw [List.find?_cons_of_neg _ (by simp [h1]), List.find?_cons_of_neg _ (by simp [h1])]
        exact ih

theorem getOpt_setOpt_ne (bag : OptionBag) (k k' : String) (v : Option String)
    (h : k' ≠ k) : getOpt (setOpt bag k v) k' = getOpt bag k' := by
  have hbne : (k == k') = false := by
    simp only [beq_eq_false_iff_ne]; exact fun e => h e.symm
  simp [getOpt, setOpt, List.find?, hbne, find?_filter_ne bag k k' h]

theorem findConnection_addConnection_self (st : Registry) (conn : ConnectionProfile)
    (uri : String) : findConnection (addConnection st conn uri) uri =
      some ⟨conn, uri, true, false⟩ := by
  simp [findConnection, addConnection, List.find?]

theorem findConnection_setConnecting_self (st : Registry) (uri : String) (b : Bool) :
    findConnection (setConnecting st uri b) uri =
      (findConnection st uri).map (fun r => { r with connecting := b }) := by
  induction st with
  | nil => simp [findConnection, setConnecting]
  | cons e t ih =>
    by_cases he : e.1 = uri
    · simp [findConnection, setConnecting, List.find?, he]
    · have h1 : (e.1 == uri) = false := by simp [he]
      simpa [findConnection, setConnecting, List.find?, h1] using ih

theorem findConnection_removeEntry_self (st : Registry) (uri : String) :
    findConnection (removeEntry st uri) uri = none := by
  have hnone : List.find? (fun e => e.1 == uri) (st.filter fun e => !(e.1 == uri)) = none := by
    rw [List.find?_eq_none]
    intro a ha
    have h2 := (List.mem_filter.mp ha).2
    simpa using h2
  simp [findConnection, removeEntry, hnone]

/-! ### Characterizations of the credential resolver -/

theorem fill_nonMFA (env : Env) (c : ConnectionProfile)
    (h : c.authenticationType ≠ azureMFA) :
    fillInOrClearAzureToken env c =
      (true, { c with options := setOpt c.options "azureAccountToken" none }) := by
  simp [fillInOrClearAzureToken, h]

theorem stampDerivedOptions_auth (c : ConnectionProfile) :
    (stampDerivedOptions c).authenticationType = c.authenticationType := rfl

theorem addSavedPassword_auth (env : Env) (c : ConnectionProfile) :
    (addSavedPassword env c).1.authenticationType = c.authenticationType := by
  unfold addSavedPassword
  cases env.storedCred c <;> rfl

theorem fill_MFA_cached (env : Env) (c : ConnectionProfile)
    (hMFA : c.authenticationType = azureMFA)
    (hc : strTruthy (getOpt c.options "azureAccountToken") = true) :
    fillInOrClearAzureToken env c = (true, c) := by
  simp [fillInOrClearAzureToken, hMFA, hc]

theorem fill_MFA_noAccount (env : Env) (c : ConnectionProfile)
    (hMFA : c.authenticationType = azureMFA)
    (hc : strTruthy (getOpt c.options "azureAccountToken") = false)
    (hfind : env.accounts.find? (fun a => a.accountId == c.userName) = none) :
    fillInOrClearAzureToken env c = (false, c) := by
  simp [fillInOrClearAzureToken, hMFA, hc, hfind]

theorem fill_MFA_refreshCancelled (env : Env) (c : ConnectionProfile) (a : Account)
    (hMFA : c.authenticationType = azureMFA)
    (hc : strTruthy (getOpt c.options "azureAccountToken") = false)
    (hfind : env.accounts.find? (fun x => x.accountId == c.userName) = some a)
    (hres : (if a.isStale then env.refresh a else some a) = none) :
    fillInOrClearAzureToken env c = (false, c) := by
  simp [fillInOrClearAzureToken, hMFA, hc, hfind, hres]

theorem fill_MFA_noTokens (env : Env) (c : ConnectionProfile) (a a2 : Account)
    (hMFA : c.authenticationType = azureMFA)
    (hc : strTruthy (getOpt c.options "azureAccountToken") = false)
    (hfind : env.accounts.find? (fun x => x.accountId == c.userName) = some a)
    (hres : (if a.isStale then env.refresh a else some a) = some a2)
    (htoks : env.securityToken a2 = []) :
    fillInOrClearAzureToken env c = (false, c) := by
  have hpref : tenantPreferred c ([] : List (String × String)) = none := by
    unfold tenantPreferred
    cases htid : c.azureTenantId with
    | none => rfl
    | some tid =>
      by_cases h : tid = ""
      · simp [h]
      · simp [h, tenantLookup]
  simp [fillInOrClearAzureToken, hMFA, hc, hfind, hres, htoks, hpref]

theorem fill_MFA_success_pref (env : Env) (c : ConnectionProfile) (a a2 : Account)
    (tok : String)
    (hMFA : c.authenticationType = azureMFA)
    (hc : strTruthy (getOpt c.options "azureAccountToken") = false)
    (hfind : env.accounts.find? (fun x => x.accountId == c.userName) = some a)
    (hres : (if a.isStale then env.refresh a else some a) = some a2)
    (hpref : tenantPreferred c (env.securityToken a2) = some tok) :
    fillInOrClearAzureToken env c =
      (true, { c with options :=
        (setOpt (setOpt c.options "azureAccountToken" (some tok)) "password" (some "")) }) := by
  simp [fillInOrClearAzureToken, hMFA, hc, hfind, hres, hpref]

theorem fill_MFA_success_first (env : Env) (c : ConnectionProfile) (a a2 : Account)
    (t1 tok : String) (rest : List (String × String))
    (hMFA : c.authenticationType = azureMFA)
    (hc : strTruthy (getOpt c.options "azureAccountToken") = false)
    (hfind : env.accounts.find? (fun x => x.accountId == c.userName) = some a)
    (hres : (if a.isStale then env.refresh a else some a) = some a2)
    (hpref : tenantPreferred c (env.securityToken a2) = none)
    (htoks : env.securityToken a2 = (t1, tok) :: rest) :
    fillInOrClearAzureToken env c =
      (true, { c with options :=
        (setOpt (setOpt c.options "azureAccountToken" (some tok)) "password" (some "")) }) := by
  have hpref2 : tenantPreferred c ((t1, tok) :: rest) = none := htoks ▸ hpref
  simp [fillInOrClearAzureToken, hMFA, hc, hfind, hres, htoks, hpref2]

/-! ### Claims -/

/-- C5: `fillInOrClearAzureToken` — for every descriptor and account state: a
non-federated authentication type clears the token option and returns true; a
cached token returns true; no matching account, a cancelled refresh, or a
matched account with no tokens returns false; and on a match it takes the
configured tenant's token when available, else the first tenant's token. -/
theorem C5_fillInOrClearAzureToken_cases (env : Env) (c : ConnectionProfile) :
    (c.authenticationType ≠ azureMFA →
      (fillInOrClearAzureToken env c).1 = true ∧
      getOpt (fillInOrClearAzureToken env c).2.options "azureAccountToken" = none)
  ∧ (c.authenticationType = azureMFA →
      strTruthy (getOpt c.options "azureAccountToken") = true →
      fillInOrClearAzureToken env c = (true, c))
  ∧ (c.authenticationType = azureMFA →
      strTruthy (getOpt c.options "azureAccountToken") = false →
      env.accounts.find? (fun a => a.accountId == c.userName) = none →
      fillInOrClearAzureToken env c = (false, c))
  ∧ (∀ a a2 : Account, c.authenticationType = azureMFA →
      strTruthy (getOpt c.options "azureAccountToken") = false →
      env.accounts.find? (fun x => x.accountId == c.userName) = some a →
      (if a.isStale then env.refresh a else some a) = some a2 →
      env.securityToken a2 = [] →
      fillInOrClearAzureToken env c = (false, c))
  ∧ (∀ (a a2 : Account) (tok : String), c.authenticationType = azureMFA →
      strTruthy (getOpt c.options "azureAccountToken") = false →
      env.accounts.find? (fun x => x.accountId == c.userName) = some a →
      (if a.isStale then env.refresh a else some a) = some a2 →
      tenantPreferred c (env.securityToken a2) = some tok →
      (fillInOrClearAzureToken env c).1 = true ∧
      getOpt (fillInOrClearAzureToken env c).2.options "azureAccountToken" = some tok)
  ∧ (∀ (a a2 : Account) (t1 tok : String) (rest : List (String × String)),
      c.authenticationType = azureMFA →
      strTruthy (getOpt c.options "azureAccountToken") = false →
      env.accounts.find? (fun x => x.accountId == c.userName) = some a →
      (if a.isStale then env.refresh a else some a) = some a2 →
      tenantPreferred c (env.securityToken a2) = none →
      env.securityToken a2 = (t1, tok) :: rest →
      (fillInOrClearAzureToken env c).1 = true ∧
      getOpt (fillInOrClearAzureToken env c).2.options "azureAccountToken" = some tok) := by
  refine ⟨?_, ?_, ?_, ?_, ?_, ?_⟩
  · intro h
    rw [fill_nonMFA env c h]
    exact ⟨rfl, getOpt_setOpt_self _ _ _⟩
  · exact fill_MFA_cached env c
  · exact fill_MFA_noAccount env c
  · exact fun a a2 => fill_MFA_noTokens env c a a2
  · intro a a2 tok hMFA hc hfind hres hpref
    rw [fill_MFA_success_pref env c a a2 tok hMFA hc hfind hres hpref]
    refine ⟨rfl, ?_⟩
    show getOpt (setOpt (setOpt c.options "azureAccountToken" (some tok)) "password" (some ""))
      "azureAccountToken" = some tok
    rw [getOpt_setOpt_ne _ _ _ _ (by decide), getOpt_setOpt_self]
  · intro a a2 t1 tok rest hMFA hc hfind hres hpref htoks
    rw [fill_MFA_success_first env c a a2 t1 tok rest hMFA hc hfind hres hpref htoks]
    refine ⟨rfl, ?_⟩
    show getOpt (setOpt (setOpt c.options "azureAccountToken" (some tok)) "password" (some ""))
      "azureAccountToken" = some tok
    rw [getOpt_setOpt_ne _ _ _ _ (by decide), getOpt_setOpt_self]

/-- Witness for C5 at a concrete non-federated descriptor. -/
theorem C5_fillInOrClearAzureToken_cases_witness :
    (fillInOrClearAzureToken idEnv baseProfile).1 = true ∧
    getOpt (fillInOrClearAzureToken idEnv baseProfile).2.options "azureAccountToken" = none :=
  (C5_fillInOrClearAzureToken_cases idEnv baseProfile).1 (by decide)

/-- C7 (counterexample): the resolver does mutate the caller's descriptor — at a
federated descriptor with a matching account, the post-state of the argument
object differs from the argument: the token is written into its option bag and
its password option is blanked. -/
theorem C7_counterexample :
    ¬ ((fillInOrClearAzureToken mutEnv mfaProfile).2 = mfaProfile) ∧
    getOpt (fillInOrClearAzureToken mutEnv mfaProfile).2.options "azureAccountToken" = some "tok1" ∧
    getOpt mfaProfile.options "azureAccountToken" = none ∧
    getOpt (fillInOrClearAzureToken mutEnv mfaProfile).2.options "password" = some "" := by
  refine ⟨?_, ?_, ?_, ?_⟩ <;> decide

/-- C7 (amended): `fillInOrClearAzureToken` mutates the descriptor it is given
in place (no copy): on a successful federated match it writes the security token
into the argument's option bag and blanks the argument's password option; all
other fields of the descriptor are left unchanged, as the structure update
shows. -/
theorem C7_fill_mutates_argument_in_place (env : Env) (c : ConnectionProfile)
    (a a2 : Account) (t1 tok : String) (rest : List (String × String))
    (hMFA : c.authenticationType = azureMFA)
    (hc : strTruthy (getOpt c.options "azureAccountToken") = false)
    (hfind : env.accounts.find? (fun x => x.accountId == c.userName) = some a)
    (hres : (if a.isStale then env.refresh a else some a) = some a2)
    (hpref : tenantPreferred c (env.securityToken a2) = none)
    (htoks : env.securityToken a2 = (t1, tok) :: rest) :
    fillInOrClearAzureToken env c =
      (true, { c with options :=
        (setOpt (setOpt c.options "azureAccountToken" (some tok)) "password" (some "")) }) :=
  fill_MFA_success_first env c a a2 t1 tok rest hMFA hc hfind hres hpref htoks

/-- Witness for the amended C7 at the concrete account state. -/
theorem C7_fill_mutates_argument_in_place_witness :
    fillInOrClearAzureToken mutEnv mfaProfile =
      (true, { mfaProfile with options :=
        (setOpt (setOpt mfaProfile.options "azureAccountToken" (some "tok1"))
          "password" (some "")) }) :=
  C7_fill_mutates_argument_in_place mutEnv mfaProfile ⟨"u", false⟩ ⟨"u", false⟩
    "t1" "tok1" [] (by decide) (by decide) (by decide) (by decide) (by decide) (by decide)

/-- C10: `isProfileConnected` and `isProfileConnecting` are mutually exclusive,
and each holds exactly when a registry record for the profile exists with the
`connecting` flag unset resp. set. -/
theorem C10_profile_connected_connecting (st : Registry) (p : ConnectionProfile) :
    ¬ (isProfileConnected st p = true ∧ isProfileConnecting st p = true)
  ∧ (isProfileConnected st p = true ↔
      ∃ r, findConnectionProfile st p = some r ∧ r.connecting = false)
  ∧ (isProfileConnecting st p = true ↔
      ∃ r, findConnectionProfile st p = some r ∧ r.connecting = true) := by
  unfold isProfileConnected isProfileConnecting
  cases h : findConnectionProfile st p with
  | none => simp
  | some r => cases hr : r.connecting <;> simp [hr]

/-- Witness for C10 at a concrete registry holding one connected record. -/
theorem C10_profile_connected_connecting_witness :
    ∃ r, findConnectionProfile [("u0", ⟨baseProfile, "u0", false, false⟩)] baseProfile
      = some r ∧ r.connecting = false :=
  (C10_profile_connected_connecting [("u0", ⟨baseProfile, "u0", false, false⟩)]
    baseProfile).2.1.mp (by decide)

/-- C1: a completion that finds its record marked deleted resolves (never
rejects) with `errorHandled = true` and the provider's raw connected value, and
leaves no registry record for the owner URI. -/
theorem C1_createNewConnection_deleted_resolves (env : Env) (n : Nat) (uri : String)
    (conn : ConnectionProfile) (st : Registry) (r : ConnRecord)
    (hfind : findConnection (env.interfere n (addConnection st conn uri)) uri = some r)
    (hdel : r.deleted = true) :
    (createNewConnection env n uri conn st).1.errorHandled = true
  ∧ (createNewConnection env n uri conn st).1.connected = (env.complete n).connectResult
  ∧ (createNewConnection env n uri conn st).1.errorMessage = none
  ∧ findConnection (createNewConnection env n uri conn st).2 uri = none := by
  have h3 : findConnection
      (setConnecting (env.interfere n (addConnection st conn uri)) uri false) uri
      = some { r with connecting := false } := by
    rw [findConnection_setConnecting_self, hfind]; rfl
  simp [createNewConnection, h3, hdel, deleteConnection, findConnection_removeEntry_self]



/-- Witness for C1: the deleted-while-in-flight completion at a concrete state. -/
theorem C1_createNewConnection_deleted_resolves_witness :
    findConnection (delEnv.interfere 0 (addConnection [] baseProfile "u0")) "u0"
      = some ⟨baseProfile, "u0", true, true⟩
  ∧ ((createNewConnection delEnv 0 "u0" baseProfile []).1.errorHandled = true
      ∧ (createNewConnection delEnv 0 "u0" baseProfile []).1.connected
          = (delEnv.complete 0).connectResult
      ∧ (createNewConnection delEnv 0 "u0" baseProfile []).1.errorMessage = none
      ∧ findConnection (createNewConnection delEnv 0 "u0" baseProfile []).2 "u0" = none) :=
  ⟨by decide,
    C1_createNewConnection_deleted_resolves delEnv 0 "u0" baseProfile []
      ⟨baseProfile, "u0", true, true⟩ (by decide) rfl⟩

/-- C4: when federated token resolution fails, `connectWithOptions` rejects
with the auth-token error before any provider dispatch: the dispatch counter
and the registry are unchanged, so no attempt record was registered. -/
theorem C4_connectWithOptions_auth_token_rejects (env : Env) (conn : ConnectionProfile)
    (uri? : Option String) (opts : IConnectionCompletionOptions) (st : Registry) (n : Nat)
    (hfill : (fillInOrClearAzureToken env (stampDerivedOptions conn)).1 = false) :
    connectWithOptions env conn uri? opts st n =
      (.error .authTokenError,
        (fillInOrClearAzureToken env (stampDerivedOptions conn)).2, st, n) := by
  unfold connectWithOptions
  simp [hfill]

/-- Witness for C4: a federated descriptor with no matching account. -/
theorem C4_connectWithOptions_auth_token_rejects_witness :
    (fillInOrClearAzureToken idEnv (stampDerivedOptions mfaProfile)).1 = false
  ∧ connectWithOptions idEnv mfaProfile (some "u0") ⟨false, false, false, true⟩ [] 0 =
      (.error .authTokenError,
        (fillInOrClearAzureToken idEnv (stampDerivedOptions mfaProfile)).2, [], 0) :=
  ⟨by decide,
    C4_connectWithOptions_auth_token_rejects idEnv mfaProfile (some "u0")
      ⟨false, false, false, true⟩ [] 0 (by decide)⟩

theorem createNewConnection_fail (env : Env) (n : Nat) (uri : String)
    (conn : ConnectionProfile) (st : Registry)
    (hint : env.interfere n (addConnection st conn uri) = addConnection st conn uri)
    (hmsg : strTruthy (env.complete n).errorMessage = true) :
    createNewConnection env n uri conn st =
      (⟨(env.complete n).connectResult, (env.complete n).errorMessage,
        (env.complete n).errorCode, (env.complete n).callStack, false, some conn⟩,
       removeEntry (setConnecting (addConnection st conn uri) uri false) uri) := by
  have h3 : findConnection (setConnecting (addConnection st conn uri) uri false) uri
      = some ⟨conn, uri, false, false⟩ := by
    rw [findConnection_setConnecting_self, findConnection_addConnection_self]; rfl
  simp [createNewConnection, hint, h3, hmsg, deleteConnection]

theorem cwo_count_no_retry (env : Env) (c : ConnectionProfile) (uri? : Option String)
    (opts : IConnectionCompletionOptions) (st : Registry) (n : Nat)
    (hauth : c.authenticationType ≠ azureMFA)
    (hflagf : opts.showFirewallRuleOnError = false) :
    (connectWithOptions env c uri? opts st n).2.2.2 = n + 1 := by
  have hstamp : (stampDerivedOptions c).authenticationType ≠ azureMFA := hauth
  unfold connectWithOptions
  dsimp only
  rw [fill_nonMFA env _ hstamp]
  dsimp only
  rw [if_neg (by simp)]
  repeat' split <;> simp_all [hflagf]



theorem cwo_fail_retry_step (env : Env) (c : ConnectionProfile) (uri? : Option String)
    (opts : IConnectionCompletionOptions) (st : Registry) (n : Nat)
    (hauth : c.authenticationType ≠ azureMFA)
    (hfail : (env.complete n).connectResult = false)
    (hmsg : strTruthy (env.complete n).errorMessage = true)
    (hcode : codeTruthy (env.complete n).errorCode = true)
    (hint : ∀ s, env.interfere n s = s)
    (hcan : env.canHandleFirewallRule = true)
    (hdlg : env.firewallRuleDialogResult = true)
    (hflag : opts.showFirewallRuleOnError = true) :
    connectWithOptions env c uri? opts st n =
      connectWithOptions env (fillInOrClearAzureToken env (stampDerivedOptions c)).2
        (some (resolvedUri st (stampDerivedOptions c) uri?))
        { opts with showFirewallRuleOnError := false }
        (removeEntry
          (setConnecting
            (addConnection st (fillInOrClearAzureToken env (stampDerivedOptions c)).2
              (resolvedUri st (stampDerivedOptions c) uri?))
            (resolvedUri st (stampDerivedOptions c) uri?) false)
          (resolvedUri st (stampDerivedOptions c) uri?))
        (n + 1) := by
  have hstamp : (stampDerivedOptions c).authenticationType ≠ azureMFA := hauth
  conv_lhs => unfold connectWithOptions
  dsimp only
  rw [fill_nonMFA env _ hstamp]
  dsimp only
  rw [if_neg (by simp)]
  rw [createNewConnection_fail env n _ _ st (hint _) hmsg]
  dsimp only
  rw [if_neg (by simp [hfail])]
  rw [if_pos (by simpa using hmsg)]
  rw [if_pos (by simp [hflag, hcode])]
  unfold handleFirewallRuleError
  simp only [hcan, hdlg, eq_self_iff_true, if_true, ite_true]
  rfl

/-- C2: the recovery protocol is strictly bounded — against a provider that
always fails with a remediable (truthy) error code and a remediation delegate
that always succeeds, an orchestrated `connectWithOptions` with the
firewall-recovery option enabled performs exactly two provider dispatches,
never more: the retry re-enters `connectWithOptions` with the recovery option
disabled, so the second failure cannot recurse again. -/
theorem C2_connectWithOptions_bounded_recovery (env : Env) (conn : ConnectionProfile)
    (uri? : Option String) (opts : IConnectionCompletionOptions) (st : Registry) (n : Nat)
    (hfail : ∀ k, (env.complete k).connectResult = false)
    (hmsg : ∀ k, strTruthy (env.complete k).errorMessage = true)
    (hcode : ∀ k, codeTruthy (env.complete k).errorCode = true)
    (hint : ∀ k s, env.interfere k s = s)
    (hcan : env.canHandleFirewallRule = true)
    (hdlg : env.firewallRuleDialogResult = true)
    (hflag : opts.showFirewallRuleOnError = true)
    (hauth : conn.authenticationType ≠ azureMFA) :
    (connectWithOptions env conn uri? opts st n).2.2.2 = n + 2 := by
  have hstamp : (stampDerivedOptions conn).authenticationType ≠ azureMFA := hauth
  have hauth2 : (fillInOrClearAzureToken env
      (stampDerivedOptions conn)).2.authenticationType = conn.authenticationType := by
    rw [fill_nonMFA env _ hstamp]
    rfl
  rw [cwo_fail_retry_step env conn uri? opts st n hauth (hfail n) (hmsg n) (hcode n)
      (hint n) hcan hdlg hflag]
  exact cwo_count_no_retry env _ _ _ _ (n + 1) (by rw [hauth2]; exact hauth) rfl



/-- Witness for C2: the two-dispatch run at a concrete state. -/
theorem C2_connectWithOptions_bounded_recovery_witness :
    (connectWithOptions failEnv baseProfile (some "u0")
      ⟨false, false, false, true⟩ [] 0).2.2.2 = 0 + 2 :=
  C2_connectWithOptions_bounded_recovery failEnv baseProfile (some "u0")
    ⟨false, false, false, true⟩ [] 0 (fun _ => rfl) (fun _ => rfl)
    (fun _ => rfl) (fun _ _ => rfl) rfl rfl rfl (by decide)

theorem loadAndBackfill_auth (env : Env) (c : ConnectionProfile) (st : Registry) :
    (loadAndBackfill env c st).1.authenticationType = c.authenticationType := by
  unfold loadAndBackfill
  dsimp only
  split
  · split
    · exact addSavedPassword_auth env c
    · exact addSavedPassword_auth env c
  · exact addSavedPassword_auth env c

theorem cwo_post_token_flagfalse (env : Env) (c : ConnectionProfile) (uri? : Option String)
    (opts : IConnectionCompletionOptions) (st : Registry) (n : Nat)
    (hauth : c.authenticationType ≠ azureMFA)
    (hflagf : opts.showFirewallRuleOnError = false) :
    getOpt (connectWithOptions env c uri? opts st n).2.1.options "azureAccountToken" = none := by
  have hstamp : (stampDerivedOptions c).authenticationType ≠ azureMFA := hauth
  unfold connectWithOptions
  dsimp only
  rw [fill_nonMFA env _ hstamp]
  dsimp only
  rw [if_neg (by simp)]
  repeat' split <;> simp_all [hflagf, getOpt_setOpt_self]

theorem cwo_post_token (env : Env) (c : ConnectionProfile) (uri? : Option String)
    (opts : IConnectionCompletionOptions) (st : Registry) (n : Nat)
    (hauth : c.authenticationType ≠ azureMFA) :
    getOpt (connectWithOptions env c uri? opts st n).2.1.options "azureAccountToken" = none := by
  cases hflag : opts.showFirewallRuleOnError with
  | false => exact cwo_post_token_flagfalse env c uri? opts st n hauth hflag
  | true =>
    have hstamp : (stampDerivedOptions c).authenticationType ≠ azureMFA := hauth
    unfold connectWithOptions
    dsimp only
    rw [fill_nonMFA env _ hstamp]
    dsimp only
    rw [if_neg (by simp)]
    repeat' split
    all_goals
      first
      | simp [getOpt_setOpt_self]
      | (refine cwo_post_token_flagfalse env _ _ _ _ _ hauth ?_; rfl)

theorem tryConnect_post_token (env : Env) (c : ConnectionProfile) (ownerUri : String)
    (opts : IConnectionCompletionOptions) (st : Registry) (n : Nat)
    (hauth : c.authenticationType ≠ azureMFA) :
    getOpt (tryConnect env c ownerUri opts st n).2.1.options "azureAccountToken" = none := by
  have hauth1 : (loadAndBackfill env c st).1.authenticationType ≠ azureMFA := by
    rw [loadAndBackfill_auth]; exact hauth
  have hfill := fill_nonMFA env (loadAndBackfill env c st).1 hauth1
  have hauth2 : (fillInOrClearAzureToken env
      (loadAndBackfill env c st).1).2.authenticationType ≠ azureMFA := by
    rw [hfill]
    show (loadAndBackfill env c st).1.authenticationType ≠ azureMFA
    exact hauth1
  unfold tryConnect
  dsimp only
  split
  · rw [hfill]
    exact getOpt_setOpt_self _ _ _
  · exact cwo_post_token env _ _ _ _ _ hauth2

theorem connect_post_token (env : Env) (c : ConnectionProfile) (uri? : Option String)
    (opts : IConnectionCompletionOptions) (st : Registry) (n : Nat)
    (hauth : c.authenticationType ≠ azureMFA) :
    getOpt (connect env c uri? opts st n).2.1.options "azureAccountToken" = none := by
  unfold connect
  dsimp only
  exact tryConnect_post_token env c _ opts st n hauth

/-- C6: after any connect attempt on a descriptor whose authentication type is
not federated — through `connectWithOptions`, `tryConnect` or `connect`, each of
which runs `fillInOrClearAzureToken` — the `azureAccountToken` option-bag entry
of the attempt's descriptor (its post-state) is absent/cleared; the resolver
itself only populates the entry on the federated path. -/
theorem C6_nonfederated_token_cleared (env : Env) (c : ConnectionProfile)
    (hauth : c.authenticationType ≠ azureMFA) :
    getOpt (fillInOrClearAzureToken env c).2.options "azureAccountToken" = none
  ∧ (∀ (uri? : Option String) (opts : IConnectionCompletionOptions) (st : Registry) (n : Nat),
      getOpt (connectWithOptions env c uri? opts st n).2.1.options "azureAccountToken" = none)
  ∧ (∀ (ownerUri : String) (opts : IConnectionCompletionOptions) (st : Registry) (n : Nat),
      getOpt (tryConnect env c ownerUri opts st n).2.1.options "azureAccountToken" = none)
  ∧ (∀ (uri? : Option String) (opts : IConnectionCompletionOptions) (st : Registry) (n : Nat),
      getOpt (connect env c uri? opts st n).2.1.options "azureAccountToken" = none) := by
  refine ⟨?_, ?_, ?_, ?_⟩
  · rw [fill_nonMFA env c hauth]
    exact getOpt_setOpt_self _ _ _
  · exact fun uri? opts st n => cwo_post_token env c uri? opts st n hauth
  · exact fun ownerUri opts st n => tryConnect_post_token env c ownerUri opts st n hauth
  · exact fun uri? opts st n => connect_post_token env c uri? opts st n hauth



/-- Witness for C6: a non-federated descriptor with a pre-populated token field
has the token cleared by the resolver and by a full connect attempt. -/
theorem C6_nonfederated_token_cleared_witness :
    getOpt (fillInOrClearAzureToken idEnv staleTokProfile).2.options "azureAccountToken" = none
  ∧ getOpt (connect idEnv staleTokProfile (some "u0")
      ⟨false, false, false, false⟩ [] 0).2.1.options "azureAccountToken" = none :=
  ⟨(C6_nonfederated_token_cleared idEnv staleTokProfile (by decide)).1,
    (C6_nonfederated_token_cleared idEnv staleTokProfile (by decide)).2.2.2
      (some "u0") ⟨false, false, false, false⟩ [] 0⟩

/-- C3: `connectIfNotConnected` is an idempotent front door — on an
already-connected derived URI it resolves with the canonical owner URI, leaves
the registry and the dispatch counter untouched (zero provider dispatches), and
a second sequential call returns the same URI again with no further dispatch;
when the underlying connect result is not connected, it fails carrying that
result's error message. -/
theorem C3_connectIfNotConnected_idempotent (env : Env) (conn : ConnectionProfile)
    (purpose : Option String) (saveConnection : Bool) (st : Registry) (n : Nat) :
    (isConnected st (generateUri conn purpose) = true →
      connectIfNotConnected env conn purpose saveConnection st n
        = (.ok (getOriginalOwnerUri st (generateUri conn purpose)), st, n)
      ∧ connectIfNotConnected env conn purpose saveConnection
          (connectIfNotConnected env conn purpose saveConnection st n).2.1
          (connectIfNotConnected env conn purpose saveConnection st n).2.2
        = (.ok (getOriginalOwnerUri st (generateUri conn purpose)), st, n))
  ∧ (∀ (r : IConnectionResult) (c' : ConnectionProfile) (st1 : Registry) (n1 : Nat),
      isConnected st (generateUri conn purpose) = false →
      connect env conn (some (generateUri conn purpose))
        { saveTheConnection := saveConnection, showDashboard := purpose == some "dashboard",
          showConnectionDialogOnError := true, showFirewallRuleOnError := true } st n
        = (.ok r, c', st1, n1) →
      r.connected = false →
      connectIfNotConnected env conn purpose saveConnection st n
        = (.error (.notConnected r.errorMessage), st1, n1)) := by
  constructor
  · intro h
    have h1 : connectIfNotConnected env conn purpose saveConnection st n
        = (.ok (getOriginalOwnerUri st (generateUri conn purpose)), st, n) := by
      unfold connectIfNotConnected
      rw [if_pos h]
    refine ⟨h1, ?_⟩
    rw [h1]
    exact h1
  · intro r c' st1 n1 hnot hconnect hrconn
    unfold connectIfNotConnected
    rw [if_neg (by simp [hnot])]
    dsimp only
    rw [hconnect]
    simp [hrconn]





/-- Witness for C3: the already-connected fast path at a concrete registry. -/
theorem C3_connectIfNotConnected_idempotent_witness :
    connectIfNotConnected idEnv baseProfile none false connectedSt 0
      = (.ok (getOriginalOwnerUri connectedSt (generateUri baseProfile none)), connectedSt, 0)
    ∧ connectIfNotConnected idEnv baseProfile none false
        (connectIfNotConnected idEnv baseProfile none false connectedSt 0).2.1
        (connectIfNotConnected idEnv baseProfile none false connectedSt 0).2.2
      = (.ok (getOriginalOwnerUri connectedSt (generateUri baseProfile none)), connectedSt, 0) :=
  (C3_connectIfNotConnected_idempotent idEnv baseProfile none false connectedSt 0).1
    (by decide)

/-- C8: `deleteConnectionGroup` removes the group's configuration only when
every disconnect of a connected descendant connection has settled successfully;
any disconnect rejection degrades the whole deletion to a reported `false` with
the configuration left untouched, and when all disconnects fulfil and the
configuration removal succeeds the deletion reports `true`. -/
theorem C8_deleteConnectionGroup_disconnect_first (genv : GroupEnv) (st : Registry)
    (g : ConnectionProfileGroup) :
    ((∃ c ∈ (getConnectionsInGroup g).filter (fun c => isConnected st (generateUri c none)),
        genv.disconnect c = none) →
      deleteConnectionGroup genv st g = (false, false))
  ∧ ((deleteConnectionGroup genv st g).2 = true →
      (∀ c ∈ (getConnectionsInGroup g).filter (fun c => isConnected st (generateUri c none)),
        (genv.disconnect c).isSome = true) ∧ genv.removeConfigOk = true)
  ∧ ((∀ c ∈ (getConnectionsInGroup g).filter (fun c => isConnected st (generateUri c none)),
        (genv.disconnect c).isSome = true) → genv.removeConfigOk = true →
      deleteConnectionGroup genv st g = (true, true)) := by
  unfold deleteConnectionGroup
  dsimp only
  by_cases hall : ∀ c ∈ (getConnectionsInGroup g).filter
      (fun c => isConnected st (generateUri c none)), (genv.disconnect c).isSome = true
  · have hallb : (((getConnectionsInGroup g).filter
        (fun c => isConnected st (generateUri c none))).map genv.disconnect).all
          (·.isSome) = true := by
      simp only [List.all_eq_true]
      intro o ho
      obtain ⟨c, hc, rfl⟩ := List.mem_map.mp ho
      exact hall c hc
    rw [hallb]
    refine ⟨?_, ?_, ?_⟩
    · rintro ⟨c, hc, hnone⟩
      have := hall c hc
      rw [hnone] at this
      simp at this
    · intro hcfg
      refine ⟨hall, ?_⟩
      cases hro : genv.removeConfigOk with
      | false => rw [if_pos rfl, hro] at hcfg; simp at hcfg
      | true => rfl
    · intro _ hro
      rw [if_pos rfl, hro]
      simp
  · have hallb : (((getConnectionsInGroup g).filter
        (fun c => isConnected st (generateUri c none))).map genv.disconnect).all
          (·.isSome) = false := by
      rw [Bool.eq_false_iff]
      intro habs
      exact hall (by
        intro c hc
        exact List.all_eq_true.mp habs _ (List.mem_map.mpr ⟨c, hc, rfl⟩))
    rw [hallb]
    refine ⟨?_, ?_, ?_⟩
    · intro _
      simp
    · intro hcfg
      simp at hcfg
    · intro hallx _
      exact absurd hallx hall





/-- Witness for C8: one connected descendant whose disconnect rejects makes the
group deletion report failure and leave the configuration untouched. -/
theorem C8_deleteConnectionGroup_disconnect_first_witness :
    deleteConnectionGroup rejectingGroupEnv connectedSt witnessGroup = (false, false) :=
  (C8_deleteConnectionGroup_disconnect_first rejectingGroupEnv connectedSt witnessGroup).1
    ⟨baseProfile, by simp [getConnectionsInGroup, getConnectionsInGroups, witnessGroup,
      List.mem_filter]; decide, rfl⟩

theorem doHas_eq_loop (l : List ConnectionProfileGroup) :
    doHasRegisteredServers l = doHasRegisteredServersLoop l := by
  cases l with
  | nil =>
    unfold doHasRegisteredServers
    simp [doHasRegisteredServersLoop]
  | cons g rest =>
    unfold doHasRegisteredServers
    simp [List.isEmpty]

theorem InForest_nil (g : ConnectionProfileGroup) : ¬ InForest g [] := by
  intro h
  cases h with
  | atRoot hm => exact absurd hm (List.not_mem_nil _)
  | inChild hp _ => exact absurd hp (List.not_mem_nil _)

theorem InForest_cons (x g : ConnectionProfileGroup) (rest : List ConnectionProfileGroup) :
    InForest x (g :: rest) ↔ x = g ∨ InForest x g.children ∨ InForest x rest := by
  constructor
  · intro hin
    cases hin with
    | atRoot hm =>
      rcases List.mem_cons.mp hm with rfl | hm2
      · exact Or.inl rfl
      · exact Or.inr (Or.inr (.atRoot hm2))
    | inChild hp hc =>
      rcases List.mem_cons.mp hp with rfl | hp2
      · exact Or.inr (Or.inl hc)
      · exact Or.inr (Or.inr (.inChild hp2 hc))
  · rintro (rfl | hc | hr)
    · exact .atRoot (List.mem_cons_self _ _)
    · exact .inChild (List.mem_cons_self _ _) hc
    · cases hr with
      | atRoot hm => exact .atRoot (List.mem_cons_of_mem _ hm)
      | inChild hp hc2 => exact .inChild (List.mem_cons_of_mem _ hp) hc2

theorem sizeOf_children_lt (g : ConnectionProfileGroup) :
    sizeOf g.children < sizeOf g := by
  cases g with
  | mk i cs ch => simp [ConnectionProfileGroup.children]; try omega

theorem sizeOf_cons_bounds (g : ConnectionProfileGroup)
    (rest : List ConnectionProfileGroup) :
    sizeOf g.children < sizeOf (g :: rest) ∧ sizeOf rest < sizeOf (g :: rest) := by
  have h1 := sizeOf_children_lt g
  have h2 : sizeOf (g :: rest) = 1 + sizeOf g + sizeOf rest := by simp
  have h3 : 0 < sizeOf g := by cases g; simp_arith
  omega

theorem loop_iff_aux : ∀ (m : Nat) (l : List ConnectionProfileGroup), sizeOf l ≤ m →
    (doHasRegisteredServersLoop l = true ↔
      ∃ g, InForest g l ∧ g.connections ≠ []) := by
  intro m
  induction m with
  | zero =>
    intro l hl
    have : 0 < sizeOf l := by cases l <;> simp_arith
    omega
  | succ m ih =>
    intro l hl
    cases l with
    | nil =>
      constructor
      · intro hfalse
        simp [doHasRegisteredServersLoop] at hfalse
      · rintro ⟨g, hg, _⟩
        exact absurd hg (InForest_nil g)
    | cons g rest =>
      obtain ⟨hchild0, hrest0⟩ := sizeOf_cons_bounds g rest
      have hchild : sizeOf g.children ≤ m := by omega
      have hrest : sizeOf rest ≤ m := by omega
      unfold doHasRegisteredServersLoop
      rw [doHas_eq_loop]
      by_cases hc : g.connections.length > 0
      · rw [if_pos hc]
        constructor
        · intro _
          refine ⟨g, .atRoot (List.mem_cons_self _ _), ?_⟩
          intro hnil
          rw [hnil] at hc
          simp at hc
        · intro _
          rfl
      · have hcnil : g.connections = [] := by
          cases hcase : g.connections with
          | nil => rfl
          | cons a t => rw [hcase] at hc; simp at hc
        rw [if_neg hc]
        constructor
        · intro hl2
          rcases (by
            cases hch : doHasRegisteredServersLoop g.children with
            | true => exact Or.inl rfl
            | false =>
              rw [hch, if_neg (by simp)] at hl2
              exact Or.inr hl2 :
            doHasRegisteredServersLoop g.children = true ∨
              doHasRegisteredServersLoop rest = true) with h1 | h2
          · obtain ⟨x, hx, hxc⟩ := (ih g.children hchild).mp h1
            exact ⟨x, .inChild (List.mem_cons_self _ _) hx, hxc⟩
          · obtain ⟨x, hx, hxc⟩ := (ih rest hrest).mp h2
            exact ⟨x, (InForest_cons x g rest).mpr (Or.inr (Or.inr hx)), hxc⟩
        · rintro ⟨x, hx, hxc⟩
          rcases (InForest_cons x g rest).mp hx with rfl | hch | hr
          · exact absurd hcnil hxc
          · rw [(ih g.children hchild).mpr ⟨x, hch, hxc⟩]
            rfl
          · rw [(ih rest hrest).mpr ⟨x, hr, hxc⟩]
            cases doHasRegisteredServersLoop g.children <;> rfl

theorem spec_iff_aux : ∀ (m : Nat) (l : List ConnectionProfileGroup), sizeOf l ≤ m →
    (hasAnyServerSpec l = true ↔ ∃ g, InForest g l ∧ g.connections ≠ []) := by
  intro m
  induction m with
  | zero =>
    intro l hl
    have : 0 < sizeOf l := by cases l <;> simp_arith
    omega
  | succ m ih =>
    intro l hl
    cases l with
    | nil =>
      constructor
      · intro hfalse
        simp [hasAnyServerSpec] at hfalse
      · rintro ⟨g, hg, _⟩
        exact absurd hg (InForest_nil g)
    | cons g rest =>
      obtain ⟨hchild0, hrest0⟩ := sizeOf_cons_bounds g rest
      have hchild : sizeOf g.children ≤ m := by omega
      have hrest : sizeOf rest ≤ m := by omega
      unfold hasAnyServerSpec
      rw [Bool.or_eq_true, Bool.or_eq_true, decide_eq_true_eq]
      constructor
      · rintro ((hne | hch) | hr)
        · exact ⟨g, .atRoot (List.mem_cons_self _ _), hne⟩
        · obtain ⟨x, hx, hxc⟩ := (ih g.children hchild).mp hch
          exact ⟨x, .inChild (List.mem_cons_self _ _) hx, hxc⟩
        · obtain ⟨x, hx, hxc⟩ := (ih rest hrest).mp hr
          exact ⟨x, (InForest_cons x g rest).mpr (Or.inr (Or.inr hx)), hxc⟩
      · rintro ⟨x, hx, hxc⟩
        rcases (InForest_cons x g rest).mp hx with rfl | hch | hr
        · exact Or.inl (Or.inl hxc)
        · exact Or.inl (Or.inr ((ih g.children hchild).mpr ⟨x, hch, hxc⟩))
        · exact Or.inr ((ih rest hrest).mpr ⟨x, hr, hxc⟩)

/-- C9: the source's recursive "has any registered server" check — despite its
literal `for (let i = 0; root.length; ++i)` loop condition — implements a
depth-first search for any non-empty connection list across the entire group
forest: it agrees with the spec-worded DFS (`hasAnyServerSpec`) on every input
forest, and returns true exactly when some reachable group has a non-empty
connections list. -/
theorem C9_doHasRegisteredServers_dfs (root : List ConnectionProfileGroup) :
    doHasRegisteredServers root = hasAnyServerSpec root
  ∧ (doHasRegisteredServers root = true ↔
      ∃ g, InForest g root ∧ g.connections ≠ []) := by
  have hloop : doHasRegisteredServers root = true ↔
      ∃ g, InForest g root ∧ g.connections ≠ [] := by
    rw [doHas_eq_loop]
    exact loop_iff_aux (sizeOf root) root (le_refl _)
  have hspec := spec_iff_aux (sizeOf root) root (le_refl _)
  refine ⟨?_, hloop⟩
  cases hA : doHasRegisteredServers root with
  | true => exact (hspec.mpr (hloop.mp hA)).symm
  | false =>
    cases hB : hasAnyServerSpec root with
    | true =>
      rw [hloop.mpr (hspec.mp hB)] at hA
      exact hA.symm ▸ rfl
    | false => rfl

/-- Witness for C9: a two-level forest whose only registered server sits in a
child group. -/
theorem C9_doHasRegisteredServers_dfs_witness :
    ∃ g, InForest g [ConnectionProfileGroup.mk "root" [] [.mk "leaf" [baseProfile] []]]
      ∧ g.connections ≠ [] :=
  (C9_doHasRegisteredServers_dfs
      [ConnectionProfileGroup.mk "root" [] [.mk "leaf" [baseProfile] []]]).2.mp
    (by
      rw [doHas_eq_loop]
      simp [doHasRegisteredServersLoop, doHasRegisteredServers,
        ConnectionProfileGroup.connections, ConnectionProfileGroup.children])

end ConnMgmt
